import Mathlib

set_option maxHeartbeats 1000000

/-!
# Verification of the habit-tracking bot (`main.py`)

Shallow embedding of the bot's persistence layer, streak engine, dialog
validation, callback router and broadcast loop, with theorems checking the
natural-language specification against the code.

Modelling conventions:
* Calendar dates are stored by the program as ISO `YYYY-MM-DD` strings and
  compared lexicographically, which coincides with chronological order; they
  are embedded as `Int` day numbers (subtracting `timedelta(days=1)` becomes
  subtracting `1`).
* SQLite rows become Lean structures; a `fetchone` that can find nothing
  becomes an `Option`; a Python expression that can raise becomes an `Option`
  whose `none` is the raised exception.
* Integer ids are embedded as `Int` (Python's `int` is unbounded and the code
  nowhere restricts ids to be non-negative).
-/

/-- Status values stored in the `habit_tracking.status` column
(`'completed'` or `'missed'`, see the schema comment in `init_db`). -/
inductive TrackStatus where
  | completed
  | missed
deriving DecidableEq, Repr

/-- The `for record in records` loop of `Database.get_streak`
(src/main.py lines 305-319), with `cur` playing the Python `current_date`.
The second branch reproduces the source's duplicated `elif`, whose condition
is the same conjunction written in the other order. Each list entry is a
`(track_date, status)` row of the SQL result. -/
def streakLoop : Int → List (Int × TrackStatus) → Nat
  | _, [] => 0
  | cur, (record_date, status) :: rest =>
    if record_date = cur ∧ status = TrackStatus.completed then
      streakLoop (cur - 1) rest + 1
    else if status = TrackStatus.completed ∧ record_date = cur then
      streakLoop (cur - 1) rest + 1
    else 0

/-- `Database.get_streak` (src/main.py lines 287-324): `records` is the result
of `SELECT track_date, status FROM habit_tracking WHERE habit_id = ? ORDER BY
track_date DESC`; an empty result returns `0` immediately, otherwise the loop
runs starting from `today = date.today()`. -/
def get_streak (today : Int) (records : List (Int × TrackStatus)) : Nat :=
  if records.isEmpty then 0 else streakLoop today records

/-- Lookup of the record stored for day `d`, used by the spec's reference
backward scan ("if a record exists for the expected date"). -/
def refLookup (records : List (Int × TrackStatus)) (d : Int) : Option TrackStatus :=
  (records.find? (fun r => r.fst == d)).map Prod.snd

/-- Modelled from the spec (reference algorithm for the refinement claim C1):
"start at today; if a record exists for the expected date with status
completed, increment the streak counter and step the expected date back by
one day; otherwise stop." The fuel argument bounds the loop; every successful
step consumes a distinct date present in `records`, so
`records.length + 1` steps always suffice. -/
def refScan : Nat → Int → List (Int × TrackStatus) → Nat
  | 0, _, _ => 0
  | fuel + 1, cur, records =>
    if refLookup records cur = some TrackStatus.completed then
      refScan fuel (cur - 1) records + 1
    else 0

/-- Modelled from the spec: the reference backward scan started at `today`. -/
def refStreak (today : Int) (records : List (Int × TrackStatus)) : Nat :=
  refScan (records.length + 1) today records

theorem refScan_cons_of_lt (d : Int) (s : TrackStatus)
    (rest : List (Int × TrackStatus)) :
    ∀ fuel cur, cur < d →
      refScan fuel cur ((d, s) :: rest) = refScan fuel cur rest := by
  intro fuel
  induction fuel with
  | zero => intro cur _; rfl
  | succ f ih =>
    intro cur hlt
    have hhead : refLookup ((d, s) :: rest) cur = refLookup rest cur := by
      simp only [refLookup, List.find?_cons]
      have : (d == cur) = false := by
        simp only [beq_eq_false_iff_ne, ne_eq]
        exact fun h => absurd h (by omega)
      rw [this]
    simp only [refScan, hhead]
    by_cases hc : refLookup rest cur = some TrackStatus.completed
    · rw [if_pos hc, if_pos hc, ih (cur - 1) (by omega)]
    · rw [if_neg hc, if_neg hc]

theorem refLookup_eq_none (records : List (Int × TrackStatus)) (cur : Int)
    (h : ∀ r ∈ records, r.fst < cur) : refLookup records cur = none := by
  have hfind : records.find? (fun r => r.fst == cur) = none := by
    rw [List.find?_eq_none]
    intro r hr
    have := h r hr
    simp only [beq_iff_eq]
    omega
  simp [refLookup, hfind]

theorem streakLoop_eq_refScan :
    ∀ (records : List (Int × TrackStatus)) (fuel : Nat) (cur : Int),
      records.Pairwise (fun a b => b.fst < a.fst) →
      (∀ r ∈ records, r.fst ≤ cur) →
      records.length < fuel →
      streakLoop cur records = refScan fuel cur records := by
  intro records
  induction records with
  | nil =>
    intro fuel cur _ _ hfuel
    match fuel, hfuel with
    | f + 1, _ =>
      simp [streakLoop, refScan, refLookup]
  | cons hd rest ih =>
    intro fuel cur hsort hle hfuel
    obtain ⟨d, s⟩ := hd
    match fuel, hfuel with
    | f + 1, hfuel =>
      have hrest_lt_d : ∀ r ∈ rest, r.fst < d := by
        intro r hr
        exact (List.pairwise_cons.mp hsort).1 r hr
      by_cases hd_eq : d = cur
      · subst hd_eq
        cases s with
        | completed =>
          have hlook : refLookup ((d, TrackStatus.completed) :: rest) d
              = some TrackStatus.completed := by
            simp [refLookup, List.find?_cons]
          simp only [refScan, hlook, if_pos rfl]
          simp only [streakLoop, if_pos (And.intro rfl rfl)]
          rw [refScan_cons_of_lt d TrackStatus.completed rest f (d - 1) (by omega)]
          have hrec := ih f (d - 1) (List.pairwise_cons.mp hsort).2
            (fun r hr => by have := hrest_lt_d r hr; omega)
            (by simpa using Nat.lt_of_succ_lt_succ hfuel)
          rw [hrec]
          simp
        | missed =>
          have hlook : refLookup ((d, TrackStatus.missed) :: rest) d
              = some TrackStatus.missed := by
            simp [refLookup, List.find?_cons]
          have hne : refLookup ((d, TrackStatus.missed) :: rest) d
              ≠ some TrackStatus.completed := by
            rw [hlook]; intro h; injection h with h; cases h
          simp only [refScan, if_neg hne]
          simp [streakLoop]
      · have hd_lt : d < cur := by
          have := hle (d, s) (List.mem_cons_self _ _)
          simp only at this
          omega
        have hall_lt : ∀ r ∈ (d, s) :: rest, r.fst < cur := by
          intro r hr
          rcases List.mem_cons.mp hr with h | h
          · subst h; exact hd_lt
          · have := hrest_lt_d r h; omega
        have hlook := refLookup_eq_none ((d, s) :: rest) cur hall_lt
        have hne : refLookup ((d, s) :: rest) cur ≠ some TrackStatus.completed := by
          rw [hlook]; exact fun h => by injection h
        simp only [refScan, if_neg hne]
        simp only [streakLoop]
        rw [if_neg (fun h => hd_eq h.1), if_neg (fun h => hd_eq h.2)]

/-- The tracking rows of a habit completed on `n` consecutive days ending at
`today`, most recent first — the shape the database hands to `get_streak` for
a habit with an unbroken completed run. -/
def consecutiveCompleted : Int → Nat → List (Int × TrackStatus)
  | _, 0 => []
  | t, n + 1 => (t, TrackStatus.completed) :: consecutiveCompleted (t - 1) n

theorem streakLoop_consecutive :
    ∀ (n : Nat) (today : Int),
      streakLoop today (consecutiveCompleted today n) = n := by
  intro n
  induction n with
  | zero =>
    intro today
    rfl
  | succ n ih =>
    intro today
    have hcond : today = today ∧ TrackStatus.completed = TrackStatus.completed :=
      ⟨rfl, rfl⟩
    simp only [consecutiveCompleted, streakLoop, if_pos hcond]
    rw [ih (today - 1)]
    simp

/-- C1: `Database.get_streak` equals the spec's reference backward scan.
With zero tracking records it returns 0; over any record set as the database
delivers it (sorted by date descending, dates unique by the
`UNIQUE(habit_id, track_date)` constraint, and no date after today since
every write is dated `date.today()`), the loop agrees with the reference
scan that, starting at today, counts consecutive `completed` days; and on a
fully completed run of `N + 1` consecutive days ending today the result is
`N + 1`. -/
theorem C1_get_streak_matches_reference (today : Int)
    (records : List (Int × TrackStatus)) (n : Nat)
    (hsort : records.Pairwise (fun a b => b.fst < a.fst))
    (hle : ∀ r ∈ records, r.fst ≤ today) :
    get_streak today [] = 0 ∧
    get_streak today records = refStreak today records ∧
    get_streak today (consecutiveCompleted today (n + 1)) = n + 1 := by
  refine ⟨rfl, ?_, ?_⟩
  · cases records with
    | nil => rfl
    | cons hd rest =>
      have hne : (hd :: rest).isEmpty = false := rfl
      simp only [get_streak, hne, if_neg Bool.false_ne_true, refStreak]
      exact streakLoop_eq_refScan (hd :: rest) ((hd :: rest).length + 1) today
        hsort hle (Nat.lt_succ_self _)
  · have hne : (consecutiveCompleted today (n + 1)).isEmpty = false := rfl
    simp only [get_streak, hne, if_neg Bool.false_ne_true]
    exact streakLoop_consecutive (n + 1) today

/-- Witness for C1 at a concrete input: two completed records for today and
yesterday, `today = 100`, `n = 1`. -/
theorem C1_witness :
    get_streak 100 [] = 0 ∧
    get_streak 100 [(100, TrackStatus.completed), (99, TrackStatus.completed)]
      = refStreak 100 [(100, TrackStatus.completed), (99, TrackStatus.completed)] ∧
    get_streak 100 (consecutiveCompleted 100 (1 + 1)) = 1 + 1 :=
  C1_get_streak_matches_reference 100
    [(100, TrackStatus.completed), (99, TrackStatus.completed)] 1
    (by decide) (by decide)

/-- One row of the `habit_tracking` table (the `tracking_id` surrogate key
plays no role in any claim and is omitted). -/
structure TrackingRow where
  habit_id : Int
  track_date : Int
  status : TrackStatus
deriving DecidableEq, Repr

/-- The `WHERE habit_id = ? AND track_date = ?` filter used by
`track_habit` and `get_today_status`. -/
def trackMatches (hid d : Int) (r : TrackingRow) : Bool :=
  r.habit_id == hid && r.track_date == d

/-- `Database.track_habit` (src/main.py lines 234-266): an `INSERT` that
raises `sqlite3.IntegrityError` exactly when a row with the same
`(habit_id, track_date)` key exists (the `UNIQUE(habit_id, track_date)`
constraint of `init_db`), in which case the handler falls back to an
`UPDATE ... SET status` on that key and returns `False`; a successful insert
returns `True`. `today` is `date.today()` computed inside the function — the
written date is always the current date at write time, never caller-supplied. -/
def track_habit (tbl : List TrackingRow) (hid today : Int) (st : TrackStatus) :
    List TrackingRow × Bool :=
  if tbl.any (trackMatches hid today) then
    (tbl.map (fun r => if trackMatches hid today r then { r with status := st } else r),
     false)
  else
    (tbl ++ [⟨hid, today, st⟩], true)

/-- `Database.get_today_status` (src/main.py lines 268-285): `fetchone` on
the same key, `None` when no row matches. -/
def get_today_status (tbl : List TrackingRow) (hid today : Int) : Option TrackStatus :=
  (tbl.find? (trackMatches hid today)).map TrackingRow.status

/-- The `UNIQUE(habit_id, track_date)` table invariant: at most one tracking
row per (habit, date) pair. -/
def uniqueKeys (tbl : List TrackingRow) : Prop :=
  tbl.Pairwise (fun a b => ¬(a.habit_id = b.habit_id ∧ a.track_date = b.track_date))

theorem update_keeps_habit_id (hid today : Int) (st : TrackStatus) (r : TrackingRow) :
    (if trackMatches hid today r then { r with status := st } else r).habit_id
      = r.habit_id := by
  by_cases h : trackMatches hid today r = true
  · rw [if_pos h]
  · rw [if_neg h]

theorem update_keeps_track_date (hid today : Int) (st : TrackStatus) (r : TrackingRow) :
    (if trackMatches hid today r then { r with status := st } else r).track_date
      = r.track_date := by
  by_cases h : trackMatches hid today r = true
  · rw [if_pos h]
  · rw [if_neg h]

theorem trackMatches_update (hid today : Int) (st : TrackStatus) (r : TrackingRow) :
    trackMatches hid today
        (if trackMatches hid today r then { r with status := st } else r)
      = trackMatches hid today r := by
  by_cases h : trackMatches hid today r = true
  · rw [if_pos h]
    rfl
  · rw [if_neg h]

theorem find?_append_of_none {α : Type} (p : α → Bool) :
    ∀ (l₁ l₂ : List α), l₁.find? p = none → (l₁ ++ l₂).find? p = l₂.find? p := by
  intro l₁
  induction l₁ with
  | nil => intro l₂ _; rfl
  | cons a l ih =>
    intro l₂ hnone
    by_cases hp : p a = true
    · rw [List.find?_cons_of_pos _ hp] at hnone
      cases hnone
    · rw [List.find?_cons_of_neg _ (by simpa using hp)] at hnone
      rw [List.cons_append, List.find?_cons_of_neg _ (by simpa using hp)]
      exact ih l₂ hnone

theorem get_today_status_track_habit (tbl : List TrackingRow) (hid today : Int)
    (st : TrackStatus) :
    get_today_status (track_habit tbl hid today st).fst hid today = some st := by
  by_cases h : tbl.any (trackMatches hid today) = true
  · simp only [track_habit, if_pos h, get_today_status]
    rw [List.find?_map]
    have hcongr : ((trackMatches hid today) ∘
        (fun r => if trackMatches hid today r then { r with status := st } else r))
        = trackMatches hid today := by
      funext r
      exact trackMatches_update hid today st r
    rw [hcongr]
    obtain ⟨r, hr, hpr⟩ := List.any_eq_true.mp h
    have hsome : (tbl.find? (trackMatches hid today)).isSome := by
      rw [List.find?_isSome]
      exact ⟨r, hr, hpr⟩
    obtain ⟨r₀, hr₀⟩ := Option.isSome_iff_exists.mp hsome
    have hpr₀ : trackMatches hid today r₀ = true := List.find?_some hr₀
    rw [hr₀]
    simp [Function.comp, hpr₀]
  · simp only [track_habit, if_neg h, get_today_status]
    have hnone : tbl.find? (trackMatches hid today) = none := by
      rw [List.find?_eq_none]
      intro x hx hpx
      exact h (List.any_eq_true.mpr ⟨x, hx, hpx⟩)
    rw [find?_append_of_none _ tbl _ hnone]
    have hmatch : trackMatches hid today ⟨hid, today, st⟩ = true := by
      simp [trackMatches]
    rw [List.find?_cons_of_pos _ hmatch]
    rfl

theorem uniqueKeys_track_habit (tbl : List TrackingRow) (hid today : Int)
    (st : TrackStatus) (h : uniqueKeys tbl) :
    uniqueKeys (track_habit tbl hid today st).fst := by
  by_cases hany : tbl.any (trackMatches hid today) = true
  · simp only [track_habit, if_pos hany]
    rw [uniqueKeys, List.pairwise_map]
    refine h.imp ?_
    intro a b hab
    simp only [update_keeps_habit_id, update_keeps_track_date]
    exact hab
  · simp only [track_habit, if_neg hany]
    rw [uniqueKeys, List.pairwise_append]
    refine ⟨h, List.pairwise_singleton _ _, ?_⟩
    intro a ha b hb
    have hb' : b = ⟨hid, today, st⟩ := by simpa using hb
    subst hb'
    intro hkey
    have hnm : trackMatches hid today a = true := by
      simp only [trackMatches, Bool.and_eq_true, beq_iff_eq]
      exact ⟨hkey.1, hkey.2⟩
    exact hany (List.any_eq_true.mpr ⟨a, ha, hnm⟩)

theorem track_habit_snd (tbl : List TrackingRow) (hid today : Int) (st : TrackStatus) :
    (track_habit tbl hid today st).snd = true ↔
      get_today_status tbl hid today = none := by
  by_cases hany : tbl.any (trackMatches hid today) = true
  · simp only [track_habit, if_pos hany, get_today_status]
    obtain ⟨r, hr, hpr⟩ := List.any_eq_true.mp hany
    have hsome : (tbl.find? (trackMatches hid today)).isSome := by
      rw [List.find?_isSome]
      exact ⟨r, hr, hpr⟩
    obtain ⟨r₀, hr₀⟩ := Option.isSome_iff_exists.mp hsome
    rw [hr₀]
    simp
  · simp only [track_habit, if_neg hany, get_today_status]
    have hnone : tbl.find? (trackMatches hid today) = none := by
      rw [List.find?_eq_none]
      intro x hx hpx
      exact hany (List.any_eq_true.mpr ⟨x, hx, hpx⟩)
    rw [hnone]
    simp

/-- C2: marking a habit is an idempotent upsert keyed on (habit, current
date). If the table satisfies the at-most-one-row-per-(habit, date) invariant,
then after `track_habit` the invariant still holds, `get_today_status` returns
the status just written (the latest mark wins), and `track_habit` reports a
fresh insert (`True`) exactly when no record existed for that (habit, date) —
i.e. only on the first mark of the day; a repeat mark updates in place instead
of erroring. The written date is the `today` argument, which in the source is
`date.today()` computed at write time inside `track_habit`. -/
theorem C2_track_habit_upsert (tbl : List TrackingRow) (hid today : Int)
    (st : TrackStatus) (h : uniqueKeys tbl) :
    uniqueKeys (track_habit tbl hid today st).fst ∧
    get_today_status (track_habit tbl hid today st).fst hid today = some st ∧
    ((track_habit tbl hid today st).snd = true ↔
      get_today_status tbl hid today = none) :=
  ⟨uniqueKeys_track_habit tbl hid today st h,
   get_today_status_track_habit tbl hid today st,
   track_habit_snd tbl hid today st⟩

/-- Witness for C2: a table holding one row (habit 1 marked `missed` on day
100), re-marked `completed` the same day. -/
theorem C2_witness :
    uniqueKeys (track_habit [⟨1, 100, TrackStatus.missed⟩] 1 100
      TrackStatus.completed).fst ∧
    get_today_status (track_habit [⟨1, 100, TrackStatus.missed⟩] 1 100
      TrackStatus.completed).fst 1 100 = some TrackStatus.completed ∧
    ((track_habit [⟨1, 100, TrackStatus.missed⟩] 1 100 TrackStatus.completed).snd
        = true ↔
      get_today_status [⟨1, 100, TrackStatus.missed⟩] 1 100 = none) :=
  C2_track_habit_upsert [⟨1, 100, TrackStatus.missed⟩] 1 100 TrackStatus.completed
    (by simp [uniqueKeys])

/-- The body of the per-recipient delivery loop of
`process_broadcast_message` (src/main.py lines 966-978): one
`bot.copy_message` per user; an exception from a single delivery is caught
inside the loop body, counted in `fail_count`, and the loop proceeds.
`deliver u = true` models a successful `copy_message` to user `u`, `false` a
raised delivery error. The accumulator is `(success_count, fail_count)`. -/
def broadcastStep (deliver : Int → Bool) (acc : Nat × Nat) (u : Int) : Nat × Nat :=
  if deliver u then (acc.fst + 1, acc.snd) else (acc.fst, acc.snd + 1)

/-- The delivery loop of `process_broadcast_message`: a strict left-to-right
pass over the `get_all_users` snapshot, in list order. -/
def broadcastLoop (deliver : Int → Bool) (users : List Int) : Nat × Nat :=
  users.foldl (broadcastStep deliver) (0, 0)

/-- The success-percentage expression of the final summary (src/main.py line
996): `success_count / total_users * 100` with Python true division. `none`
models the `ZeroDivisionError` raised when `total_users = 0`; the source has
no guard around the division. -/
def broadcastPercent (succ total : Nat) : Option ℚ :=
  if total = 0 then none else some ((succ : ℚ) / (total : ℚ) * 100)

/-- The final summary of `process_broadcast_message` (src/main.py lines
990-999): (total attempted, succeeded, failed, percentage expression). -/
def broadcastSummary (deliver : Int → Bool) (users : List Int) :
    Nat × Nat × Nat × Option ℚ :=
  (users.length,
   (broadcastLoop deliver users).fst,
   (broadcastLoop deliver users).snd,
   broadcastPercent (broadcastLoop deliver users).fst users.length)

theorem broadcastLoop_foldl (deliver : Int → Bool) :
    ∀ (users : List Int) (a b : Nat),
      users.foldl (broadcastStep deliver) (a, b)
      = (a + (users.filter deliver).length,
         b + (users.filter (fun u => !(deliver u))).length) := by
  intro users
  induction users with
  | nil => intro a b; simp
  | cons u rest ih =>
    intro a b
    by_cases h : deliver u = true
    · rw [List.foldl_cons]
      have hstep : broadcastStep deliver (a, b) u = (a + 1, b) := by
        simp [broadcastStep, h]
      rw [hstep, ih]
      have h1 : (List.filter deliver (u :: rest)).length
          = (List.filter deliver rest).length + 1 := by
        simp [List.filter_cons, h]
      have h2 : (List.filter (fun x => !(deliver x)) (u :: rest)).length
          = (List.filter (fun x => !(deliver x)) rest).length := by
        simp [List.filter_cons, h]
      rw [h1, h2]
      exact Prod.ext (by omega) (by omega)
    · rw [List.foldl_cons]
      have hstep : broadcastStep deliver (a, b) u = (a, b + 1) := by
        simp [broadcastStep, h]
      rw [hstep, ih]
      have h1 : (List.filter deliver (u :: rest)).length
          = (List.filter deliver rest).length := by
        simp [List.filter_cons, h]
      have h2 : (List.filter (fun x => !(deliver x)) (u :: rest)).length
          = (List.filter (fun x => !(deliver x)) rest).length + 1 := by
        simp [List.filter_cons, h]
      rw [h1, h2]
      exact Prod.ext (by omega) (by omega)

theorem filter_not_length (p : Int → Bool) :
    ∀ l : List Int,
      (l.filter p).length + (l.filter (fun u => !(p u))).length = l.length := by
  intro l
  induction l with
  | nil => rfl
  | cons u rest ih =>
    by_cases h : p u = true
    · simp only [List.filter_cons, h]
      simp only [List.length_cons]
      simp [ih]
      omega
    · simp only [List.filter_cons, h]
      simp only [List.length_cons]
      simp [h, ih]
      omega

/-- C3: the claim fails on the code, which has no division-by-zero guard.
Over an empty recipient list every count is zero and the percentage
expression `success_count / total_users * 100` divides by zero — modelled as
`none`, the `ZeroDivisionError` Python raises — so the final summary
computation fails instead of reporting 0% or "no recipients". -/
theorem C3_broadcast_empty_summary_fails (deliver : Int → Bool) :
    broadcastSummary deliver [] = (0, 0, 0, none) ∧
    broadcastPercent 0 0 = none :=
  ⟨rfl, rfl⟩

/-- C4: the broadcast delivers one at a time in list order (the loop is a
left fold over the user snapshot), records each outcome independently —
succeeded is exactly the number of recipients whose delivery succeeds,
failed exactly the number whose delivery raises, so no failure aborts or
skips the rest — and succeeded + failed = attempted = list length. For the
3-user scenario where only the 2nd delivery throws, the summary is
attempted 3, succeeded 2, failed 1, and the percentage 200/3 prints as
66.7% (rounding to one decimal as Python's `:.1f` does here). -/
theorem C4_broadcast_counts (deliver : Int → Bool) (users : List Int) :
    (broadcastLoop deliver users).fst = (users.filter deliver).length ∧
    (broadcastLoop deliver users).snd
      = (users.filter (fun u => !(deliver u))).length ∧
    (broadcastLoop deliver users).fst + (broadcastLoop deliver users).snd
      = users.length ∧
    broadcastSummary (fun u => u != 2) [1, 2, 3]
      = (3, 2, 1, some ((2 : ℚ) / 3 * 100)) ∧
    round ((2 : ℚ) / 3 * 100 * 10) = 667 := by
  have hfold := broadcastLoop_foldl deliver users 0 0
  have h1 : (broadcastLoop deliver users).fst = (users.filter deliver).length := by
    rw [broadcastLoop, hfold]
    simp
  have h2 : (broadcastLoop deliver users).snd
      = (users.filter (fun u => !(deliver u))).length := by
    rw [broadcastLoop, hfold]
    simp
  refine ⟨h1, h2, ?_, ?_, ?_⟩
  · rw [h1, h2]
    exact filter_not_length deliver users
  · have hloop : broadcastLoop (fun u => u != 2) [1, 2, 3] = (2, 1) := by decide
    simp only [broadcastSummary, hloop, List.length_cons, List.length_nil,
      broadcastPercent]
    norm_num
  · rw [round_eq]
    norm_num

/-- Python's `str.split(sep)` for a single-character separator, over the
character list of the string: empty chunks are kept, and splitting the empty
string yields one empty chunk, exactly as in Python. -/
def splitOnU (sep : Char) : List Char → List (List Char)
  | [] => [[]]
  | c :: rest =>
    if c = sep then [] :: splitOnU sep rest
    else (c :: (splitOnU sep rest).headI) :: (splitOnU sep rest).tail

theorem splitOnU_ne_nil (sep : Char) : ∀ l : List Char, splitOnU sep l ≠ [] := by
  intro l
  cases l with
  | nil => simp [splitOnU]
  | cons c rest =>
    by_cases h : c = sep
    · simp [splitOnU, h]
    · simp [splitOnU, h]

theorem splitOnU_append (sep : Char) :
    ∀ (p rest : List Char), (∀ c ∈ p, ¬ c = sep) →
      splitOnU sep (p ++ sep :: rest) = p :: splitOnU sep rest := by
  intro p
  induction p with
  | nil =>
    intro rest _
    simp [splitOnU]
  | cons c p ih =>
    intro rest hns
    have hc : ¬ c = sep := hns c (List.mem_cons_self _ _)
    have hrec := ih rest (fun x hx => hns x (List.mem_cons_of_mem _ hx))
    simp only [List.cons_append, splitOnU, if_neg hc, List.append_eq, hrec,
      List.headI_cons, List.tail_cons]

/-- Python's `str.strip()` with no argument: removes leading and trailing
whitespace. -/
def pyStrip (l : List Char) : List Char :=
  ((l.dropWhile Char.isWhitespace).reverse.dropWhile Char.isWhitespace).reverse

/-- Base-10 digit-run value: `some` of the number when `l` is a non-empty
run of ASCII digits, else `none`. -/
def digitsVal (l : List Char) : Option Nat :=
  if l.isEmpty then none
  else if l.all Char.isDigit then
    some (l.foldl (fun a c => a * 10 + (c.toNat - 48)) 0)
  else none

/-- Python's `int(s)` on a string: strips whitespace, allows one optional
sign, then requires a non-empty digit run; raises `ValueError` (modelled as
`none`) otherwise. (Python also accepts underscore digit grouping and
non-ASCII digits; neither can occur in this program's payload parts, which
come from `split("_")` of ASCII callback data.) -/
def pyInt (l : List Char) : Option Int :=
  match pyStrip l with
  | '-' :: rest => (digitsVal rest).map (fun n => -(n : Int))
  | '+' :: rest => (digitsVal rest).map (fun n => (n : Int))
  | t => (digitsVal t).map (fun n => (n : Int))

/-- Python's `str.startswith(pat)` as used by the aiogram
`F.data.startswith(...)` filters. -/
def startsWithL : List Char → List Char → Bool
  | [], _ => true
  | _ :: _, [] => false
  | p :: ps, c :: cs => p == c && startsWithL ps cs

theorem startsWithL_append : ∀ (p s : List Char), startsWithL p (p ++ s) = true := by
  intro p
  induction p with
  | nil => intro s; rfl
  | cons c p ih =>
    intro s
    simp [startsWithL, ih]

/-- The callback handlers of the bot, one per `@dp.callback_query`
registration in src/main.py. -/
inductive Handler where
  | myHabits
  | newHabit
  | statsMenu
  | helpMenu
  | backToMain
  | habitStats
  | completeHabit
  | missHabit
  | habitDetail
  | adminPanel
  | adminUsers
  | adminStats
  | adminBroadcast
  | unhandled
deriving DecidableEq, Repr

/-- The aiogram callback dispatcher: filters are tried in registration order
(src/main.py lines 501, 547, 557, 606, 625, 636, 682, 717, 751, 802, 817,
849, 919), so the exact matches come first, then the `startswith` families
with `habit_stats_` tested before `complete_`, `miss_` and the general
`habit_`. -/
def route (d : List Char) : Handler :=
  if d = "my_habits".data then Handler.myHabits
  else if d = "new_habit".data then Handler.newHabit
  else if d = "stats".data then Handler.statsMenu
  else if d = "help".data then Handler.helpMenu
  else if d = "back_to_main".data then Handler.backToMain
  else if startsWithL "habit_stats_".data d then Handler.habitStats
  else if startsWithL "complete_".data d then Handler.completeHabit
  else if startsWithL "miss_".data d then Handler.missHabit
  else if startsWithL "habit_".data d then Handler.habitDetail
  else if d = "admin_panel".data then Handler.adminPanel
  else if d = "admin_users".data then Handler.adminUsers
  else if d = "admin_stats".data then Handler.adminStats
  else if d = "admin_broadcast".data then Handler.adminBroadcast
  else Handler.unhandled

/-- The re-validation inside `callback_habit_detail` (src/main.py lines
756-760): `parts = callback.data.split("_")`, acts only when
`len(parts) == 2 and parts[0] == "habit"` and `int(parts[1])` parses
(`ValueError` is swallowed); `none` means the handler ignores the event. -/
def habit_detail_parse (d : List Char) : Option Int :=
  if (splitOnU '_' d).length = 2 ∧ (splitOnU '_' d).headI = "habit".data then
    pyInt ((splitOnU '_' d).getD 1 [])
  else none

/-- C5: every payload of the form `habit_stats_<anything>` is routed to the
statistics handler, never to the plain habit-detail handler — the dispatcher
tests the `habit_stats_` family before the general `habit_` family — and the
general handler's own re-validation rejects such payloads anyway, because
they split into at least three underscore-separated parts instead of exactly
two. -/
theorem C5_habit_stats_routing (suffix : List Char) :
    route ("habit_stats_".data ++ suffix) = Handler.habitStats ∧
    habit_detail_parse ("habit_stats_".data ++ suffix) = none := by
  constructor
  · have hne1 : "habit_stats_".data ++ suffix ≠ "my_habits".data := by
      intro h
      have hl : suffix.length + 12 = 9 := congrArg List.length h
      omega
    have hne2 : "habit_stats_".data ++ suffix ≠ "new_habit".data := by
      intro h
      have hl : suffix.length + 12 = 9 := congrArg List.length h
      omega
    have hne3 : "habit_stats_".data ++ suffix ≠ "stats".data := by
      intro h
      have hl : suffix.length + 12 = 5 := congrArg List.length h
      omega
    have hne4 : "habit_stats_".data ++ suffix ≠ "help".data := by
      intro h
      have hl : suffix.length + 12 = 4 := congrArg List.length h
      omega
    have hne5 : "habit_stats_".data ++ suffix ≠ "back_to_main".data := by
      intro h
      have hb : ('h' : Char) = 'b' := congrArg List.headI h
      exact absurd hb (by decide)
    have hsw : startsWithL "habit_stats_".data ("habit_stats_".data ++ suffix)
        = true := startsWithL_append _ _
    rw [route, if_neg hne1, if_neg hne2, if_neg hne3, if_neg hne4, if_neg hne5,
      if_pos hsw]
  · have hshape : "habit_stats_".data ++ suffix
        = "habit".data ++ '_' :: ("stats".data ++ '_' :: suffix) := rfl
    have hsplit1 : splitOnU '_' ("habit_stats_".data ++ suffix)
        = "habit".data :: splitOnU '_' ("stats".data ++ '_' :: suffix) := by
      rw [hshape]
      exact splitOnU_append '_' "habit".data _ (by decide)
    have hsplit2 : splitOnU '_' ("stats".data ++ '_' :: suffix)
        = "stats".data :: splitOnU '_' suffix :=
      splitOnU_append '_' "stats".data _ (by decide)
    obtain ⟨h0, t0, hobt⟩ : ∃ h0 t0, splitOnU '_' suffix = h0 :: t0 := by
      cases hs : splitOnU '_' suffix with
      | nil => exact absurd hs (splitOnU_ne_nil '_' suffix)
      | cons h0 t0 => exact ⟨h0, t0, rfl⟩
    have hlen : ¬((splitOnU '_' ("habit_stats_".data ++ suffix)).length = 2 ∧
        (splitOnU '_' ("habit_stats_".data ++ suffix)).headI = "habit".data) := by
      intro hc
      have h2 := hc.1
      rw [hsplit1, hsplit2, hobt] at h2
      simp only [List.length_cons] at h2
      omega
    rw [habit_detail_parse, if_neg hlen]

/-- The per-user dialog states of the conversation machine (`HabitStates`
and `BroadcastStates` in the source; `idle` is aiogram's cleared FSM
state). -/
inductive DialogState where
  | idle
  | awaitingHabitName
  | awaitingHabitDescription (habit_name : List Char)
  | awaitingBroadcastMessage
deriving DecidableEq, Repr

/-- `process_habit_name` (src/main.py lines 1005-1027): strips the message
text; a stripped name longer than 100 characters or shorter than 3 is
rejected with a re-prompt and the handler returns without changing state —
the session stays in `waiting_for_habit_name`; otherwise the name is stored
and the state advances to `waiting_for_habit_description`. The result is
the dialog state after the handler runs. -/
def process_habit_name (text : List Char) : DialogState :=
  if (pyStrip text).length > 100 then DialogState.awaitingHabitName
  else if (pyStrip text).length < 3 then DialogState.awaitingHabitName
  else DialogState.awaitingHabitDescription (pyStrip text)

/-- C6: in `AwaitingHabitName`, a (stripped) free-text name of length 1 or 2
is rejected and the session remains in `AwaitingHabitName` (neither advances
nor aborts); lengths exactly 3 and exactly 100 are accepted and advance to
`AwaitingHabitDescription`; length 101 is rejected. -/
theorem C6_habit_name_validation (text : List Char) :
    ((pyStrip text).length = 1 ∨ (pyStrip text).length = 2 →
      process_habit_name text = DialogState.awaitingHabitName) ∧
    ((pyStrip text).length = 3 ∨ (pyStrip text).length = 100 →
      process_habit_name text
        = DialogState.awaitingHabitDescription (pyStrip text)) ∧
    ((pyStrip text).length = 101 →
      process_habit_name text = DialogState.awaitingHabitName) := by
  refine ⟨?_, ?_, ?_⟩
  · intro h
    rcases h with h | h
    · rw [process_habit_name, if_neg (by omega), if_pos (by omega)]
    · rw [process_habit_name, if_neg (by omega), if_pos (by omega)]
  · intro h
    rcases h with h | h
    · rw [process_habit_name, if_neg (by omega), if_neg (by omega)]
    · rw [process_habit_name, if_neg (by omega), if_neg (by omega)]
  · intro h
    rw [process_habit_name, if_pos (by omega)]

/-- Witness for C6: "ab" (length 2) re-prompts, "abc" (length 3) advances,
and 101 repeated characters re-prompt. -/
theorem C6_witness :
    process_habit_name "ab".data = DialogState.awaitingHabitName ∧
    process_habit_name "abc".data
      = DialogState.awaitingHabitDescription (pyStrip "abc".data) ∧
    process_habit_name (List.replicate 101 'a') = DialogState.awaitingHabitName :=
  ⟨(C6_habit_name_validation "ab".data).1 (by decide),
   (C6_habit_name_validation "abc".data).2.1 (by decide),
   (C6_habit_name_validation (List.replicate 101 'a')).2.2 (by decide)⟩

theorem splitOnU_no_sep (sep : Char) :
    ∀ l : List Char, (∀ c ∈ l, ¬ c = sep) → splitOnU sep l = [l] := by
  intro l
  induction l with
  | nil => intro _; rfl
  | cons c rest ih =>
    intro hns
    have hc : ¬ c = sep := hns c (List.mem_cons_self _ _)
    have hrec := ih (fun x hx => hns x (List.mem_cons_of_mem _ hx))
    simp only [splitOnU, if_neg hc, hrec, List.headI_cons, List.tail_cons]

/-- One row of the `habits` table. -/
structure HabitRow where
  habit_id : Int
  user_id : Int
  habit_name : List Char
  habit_description : List Char
  created_date : Int
  is_active : Bool
deriving DecidableEq, Repr

/-- The persistent database state: the `user_id` column of `users` (its
other columns play no role in any claim), the `habits` table, and the
`habit_tracking` table. -/
structure DBState where
  users : List Int
  habits : List HabitRow
  tracking : List TrackingRow
deriving DecidableEq, Repr

/-- `Database.get_habit` (src/main.py lines 221-232): `SELECT * FROM habits
WHERE habit_id = ?` with `fetchone`. -/
def get_habit (habits : List HabitRow) (hid : Int) : Option HabitRow :=
  habits.find? (fun h => h.habit_id == hid)

/-- The user-visible notices a callback handler can emit through
`callback.answer`; a bare `callback.answer()` with no text shows nothing
and is not listed. -/
inductive Notice where
  | errorAlert  -- "Произошла ошибка" with show_alert=True, from a blanket except
  | notFound  -- "Привычка не найдена" with show_alert=True
  | toast  -- a confirmation message with show_alert=False
deriving DecidableEq, Repr

/-- `callback_complete_habit` (src/main.py lines 682-714):
`int(callback.data.split("_")[1])` (an `IndexError` or `ValueError` is
caught by the blanket `except`, which answers the visible "Произошла
ошибка" alert); then `track_habit(habit_id, "completed")` writes and
commits the mark with no check that the habit exists, is active, or belongs
to the invoking user (the handler never reads `callback.from_user`); then
the confirmation toast; then `get_habit` for the message edit, where
`habit[2]` raises `TypeError` if the habit does not exist — after the write
has already been committed. Returns the updated database and the notices
in emission order. -/
def callback_complete_habit (db : DBState) (d : List Char) (today : Int) :
    DBState × List Notice :=
  match (splitOnU '_' d).get? 1 with
  | none => (db, [Notice.errorAlert])
  | some part =>
    match pyInt part with
    | none => (db, [Notice.errorAlert])
    | some hid =>
      match get_habit db.habits hid with
      | none =>
        ({ db with tracking :=
            (track_habit db.tracking hid today TrackStatus.completed).fst },
         [Notice.toast, Notice.errorAlert])
      | some _ =>
        ({ db with tracking :=
            (track_habit db.tracking hid today TrackStatus.completed).fst },
         [Notice.toast])

/-- `callback_miss_habit` (src/main.py lines 717-748): identical structure
with status `"missed"`. -/
def callback_miss_habit (db : DBState) (d : List Char) (today : Int) :
    DBState × List Notice :=
  match (splitOnU '_' d).get? 1 with
  | none => (db, [Notice.errorAlert])
  | some part =>
    match pyInt part with
    | none => (db, [Notice.errorAlert])
    | some hid =>
      match get_habit db.habits hid with
      | none =>
        ({ db with tracking :=
            (track_habit db.tracking hid today TrackStatus.missed).fst },
         [Notice.toast, Notice.errorAlert])
      | some _ =>
        ({ db with tracking :=
            (track_habit db.tracking hid today TrackStatus.missed).fst },
         [Notice.toast])

/-- The notices emitted by `callback_habit_detail` (src/main.py lines
751-798): a payload that is not exactly `habit_<part>` returns silently; an
unparsable id hits `except ValueError: pass` (silent); a well-formed id
matching no habit answers the visible "Привычка не найдена" alert; on
success the handler edits the message and acknowledges silently. -/
def callback_habit_detail_notices (db : DBState) (d : List Char) : List Notice :=
  if (splitOnU '_' d).length = 2 ∧ (splitOnU '_' d).headI = "habit".data then
    match pyInt ((splitOnU '_' d).getD 1 []) with
    | none => []
    | some hid =>
      match get_habit db.habits hid with
      | none => [Notice.notFound]
      | some _ => []
  else []

/-- C7 fails as stated: the malformed payload `complete_abc` is not
swallowed silently. `int("abc")` raises `ValueError`, the handler's blanket
`except` catches it and answers the visible "Произошла ошибка" alert — a
user-visible notice, not a no-op. -/
theorem C7_counterexample :
    (callback_complete_habit ⟨[], [], []⟩ "complete_abc".data 0).snd
      = [Notice.errorAlert] ∧
    [Notice.errorAlert] ≠ ([] : List Notice) := by
  refine ⟨by decide, by simp⟩

/-- C7 amended: the silent-drop policy holds for the `habit_<id>` family —
whose handler has a dedicated `except ValueError: pass` — and "habit not
found" surfaces a transient alert there for a well-formed id naming no
habit; but a `complete_<id>` or `miss_<id>` payload whose id fails to parse
surfaces the generic visible "Произошла ошибка" alert from the blanket
`except`, rather than being silently dropped. -/
theorem C7_amended_malformed_payloads (db : DBState) (bad good : List Char)
    (hid : Int)
    (hbad_nosep : ∀ c ∈ bad, ¬ c = '_') (hbad : pyInt bad = none)
    (hgood_nosep : ∀ c ∈ good, ¬ c = '_') (hgood : pyInt good = some hid)
    (hmissing : get_habit db.habits hid = none) :
    callback_habit_detail_notices db ("habit_".data ++ bad) = [] ∧
    callback_habit_detail_notices db ("habit_".data ++ good)
      = [Notice.notFound] ∧
    (callback_complete_habit db ("complete_".data ++ bad) 0).snd
      = [Notice.errorAlert] ∧
    (callback_miss_habit db ("miss_".data ++ bad) 0).snd
      = [Notice.errorAlert] := by
  have hsplit_bad : splitOnU '_' ("habit_".data ++ bad) = ["habit".data, bad] := by
    have hshape : "habit_".data ++ bad = "habit".data ++ '_' :: bad := rfl
    rw [hshape, splitOnU_append '_' "habit".data bad (by decide),
      splitOnU_no_sep '_' bad hbad_nosep]
  have hsplit_good : splitOnU '_' ("habit_".data ++ good)
      = ["habit".data, good] := by
    have hshape : "habit_".data ++ good = "habit".data ++ '_' :: good := rfl
    rw [hshape, splitOnU_append '_' "habit".data good (by decide),
      splitOnU_no_sep '_' good hgood_nosep]
  have hsplit_c : splitOnU '_' ("complete_".data ++ bad)
      = ["complete".data, bad] := by
    have hshape : "complete_".data ++ bad = "complete".data ++ '_' :: bad := rfl
    rw [hshape, splitOnU_append '_' "complete".data bad (by decide),
      splitOnU_no_sep '_' bad hbad_nosep]
  have hsplit_m : splitOnU '_' ("miss_".data ++ bad) = ["miss".data, bad] := by
    have hshape : "miss_".data ++ bad = "miss".data ++ '_' :: bad := rfl
    rw [hshape, splitOnU_append '_' "miss".data bad (by decide),
      splitOnU_no_sep '_' bad hbad_nosep]
  refine ⟨?_, ?_, ?_, ?_⟩
  · simp only [callback_habit_detail_notices, hsplit_bad]
    rw [if_pos (by simp)]
    rw [show (["habit".data, bad] : List (List Char)).getD 1 [] = bad from rfl]
    rw [hbad]
  · simp only [callback_habit_detail_notices, hsplit_good]
    rw [if_pos (by simp)]
    rw [show (["habit".data, good] : List (List Char)).getD 1 [] = good from rfl]
    rw [hgood]
    simp [hmissing]
  · simp only [callback_complete_habit, hsplit_c]
    rw [show (["complete".data, bad] : List (List Char)).get? 1 = some bad from rfl]
    simp [hbad]
  · simp only [callback_miss_habit, hsplit_m]
    rw [show (["miss".data, bad] : List (List Char)).get? 1 = some bad from rfl]
    simp [hbad]

/-- Witness for C7's amended statement at concrete inputs: `habit_xyz` is
silent, `habit_42` against an empty database alerts "not found",
`complete_xyz` and `miss_xyz` alert the generic error. -/
theorem C7_amended_witness :
    callback_habit_detail_notices ⟨[], [], []⟩ ("habit_".data ++ "xyz".data)
      = [] ∧
    callback_habit_detail_notices ⟨[], [], []⟩ ("habit_".data ++ "42".data)
      = [Notice.notFound] ∧
    (callback_complete_habit ⟨[], [], []⟩ ("complete_".data ++ "xyz".data) 0).snd
      = [Notice.errorAlert] ∧
    (callback_miss_habit ⟨[], [], []⟩ ("miss_".data ++ "xyz".data) 0).snd
      = [Notice.errorAlert] :=
  C7_amended_malformed_payloads ⟨[], [], []⟩ "xyz".data "42".data 42
    (by decide) (by decide) (by decide) (by decide) (by decide)

/-- C10: the `complete_<id>` and `miss_<id>` handlers pass the parsed id
straight to `track_habit` with no check that the habit exists, is active, or
is owned by the invoking user (the handlers never read
`callback.from_user`). For EVERY database state — in particular ones where
the id names no habit, an inactive habit, or another user's habit — the
tracking write lands: the tracking table becomes exactly
`track_habit db.tracking hid today status`, today's status for that id
reads back as the mark, and the users and habits tables are untouched. -/
theorem C10_track_without_checks (db : DBState) (part : List Char) (hid : Int)
    (today : Int) (hnosep : ∀ c ∈ part, ¬ c = '_')
    (hparse : pyInt part = some hid) :
    (callback_complete_habit db ("complete_".data ++ part) today).fst.tracking
      = (track_habit db.tracking hid today TrackStatus.completed).fst ∧
    get_today_status
      (callback_complete_habit db ("complete_".data ++ part) today).fst.tracking
      hid today = some TrackStatus.completed ∧
    (callback_complete_habit db ("complete_".data ++ part) today).fst.habits
      = db.habits ∧
    (callback_complete_habit db ("complete_".data ++ part) today).fst.users
      = db.users ∧
    (callback_miss_habit db ("miss_".data ++ part) today).fst.tracking
      = (track_habit db.tracking hid today TrackStatus.missed).fst := by
  have hsplit_c : splitOnU '_' ("complete_".data ++ part)
      = ["complete".data, part] := by
    have hshape : "complete_".data ++ part = "complete".data ++ '_' :: part := rfl
    rw [hshape, splitOnU_append '_' "complete".data part (by decide),
      splitOnU_no_sep '_' part hnosep]
  have hsplit_m : splitOnU '_' ("miss_".data ++ part) = ["miss".data, part] := by
    have hshape : "miss_".data ++ part = "miss".data ++ '_' :: part := rfl
    rw [hshape, splitOnU_append '_' "miss".data part (by decide),
      splitOnU_no_sep '_' part hnosep]
  have hfst_c : (callback_complete_habit db ("complete_".data ++ part) today).fst
      = { db with tracking :=
          (track_habit db.tracking hid today TrackStatus.completed).fst } := by
    simp only [callback_complete_habit, hsplit_c]
    rw [show (["complete".data, part] : List (List Char)).get? 1 = some part
      from rfl]
    cases hh : get_habit db.habits hid <;> simp [hparse, hh]
  have hfst_m : (callback_miss_habit db ("miss_".data ++ part) today).fst
      = { db with tracking :=
          (track_habit db.tracking hid today TrackStatus.missed).fst } := by
    simp only [callback_miss_habit, hsplit_m]
    rw [show (["miss".data, part] : List (List Char)).get? 1 = some part
      from rfl]
    cases hh : get_habit db.habits hid <;> simp [hparse, hh]
  refine ⟨?_, ?_, ?_, ?_, ?_⟩
  · rw [hfst_c]
  · rw [hfst_c]
    exact get_today_status_track_habit db.tracking hid today TrackStatus.completed
  · rw [hfst_c]
  · rw [hfst_c]
  · rw [hfst_m]

/-- Witness for C10: payload id part "7" against a database whose habits
table is empty (habit 7 does not exist) — the write still lands. -/
theorem C10_witness :
    (callback_complete_habit ⟨[], [], []⟩ ("complete_".data ++ "7".data) 50).fst.tracking
      = (track_habit [] 7 50 TrackStatus.completed).fst ∧
    get_today_status
      (callback_complete_habit ⟨[], [], []⟩ ("complete_".data ++ "7".data) 50).fst.tracking
      7 50 = some TrackStatus.completed ∧
    (callback_complete_habit ⟨[], [], []⟩ ("complete_".data ++ "7".data) 50).fst.habits
      = ([] : List HabitRow) ∧
    (callback_complete_habit ⟨[], [], []⟩ ("complete_".data ++ "7".data) 50).fst.users
      = ([] : List Int) ∧
    (callback_miss_habit ⟨[], [], []⟩ ("miss_".data ++ "7".data) 50).fst.tracking
      = (track_habit [] 7 50 TrackStatus.missed).fst :=
  C10_track_without_checks ⟨[], [], []⟩ "7".data 7 50 (by decide) (by decide)

/-- The row `Database.get_habit_stats` fetches (src/main.py lines 341-361):
`(completed_count, missed_count, MIN(track_date), MAX(track_date))`. The
count fields are `Option Nat` to mirror Python's `is not None` test on them
faithfully; SQL `COUNT` never yields NULL, so the embedding always fills
them with `some`, while `MIN`/`MAX` are NULL (`none`) on an empty set of
rows. -/
structure HabitStatsRow where
  completed_count : Option Nat
  missed_count : Option Nat
  first_track : Option Int
  last_track : Option Int
deriving DecidableEq, Repr

/-- `COUNT(CASE WHEN status = st THEN 1 END)` over the habit's rows. -/
def countStatus (st : TrackStatus) (records : List (Int × TrackStatus)) : Nat :=
  (records.filter (fun r => r.snd == st)).length

/-- `Database.get_habit_stats` over the tracking rows of one habit. -/
def get_habit_stats (records : List (Int × TrackStatus)) : HabitStatsRow :=
  ⟨some (countStatus TrackStatus.completed records),
   some (countStatus TrackStatus.missed records),
   (records.map Prod.fst).min?,
   (records.map Prod.fst).max?⟩

/-- What `callback_habit_stats` renders (src/main.py lines 649-664): the
data block is chosen when `stats and stats[0] is not None`, the
"Пока нет данных для статистики" text otherwise; inside the data block the
percentage `stats[0] / total * 100` is appended only under the
`if total > 0` guard (`none` = no percentage line, so no division happens).
`stats[1]` is used directly in Python; the `getD 0` here merely unwraps the
`Option` that models SQL NULL-ability and never takes its default, since
`COUNT` is never NULL. -/
inductive StatsReport where
  | noData
  | dataBlock (completed missed : Nat) (percent : Option ℚ)
deriving DecidableEq, Repr

def callback_habit_stats_render (records : List (Int × TrackStatus)) :
    StatsReport :=
  match (get_habit_stats records).completed_count with
  | none => StatsReport.noData
  | some c =>
    StatsReport.dataBlock c ((get_habit_stats records).missed_count.getD 0)
      (if c + (get_habit_stats records).missed_count.getD 0 > 0 then
        some ((c : ℚ) / ((c : ℚ) + ((get_habit_stats records).missed_count.getD 0 : ℚ)) * 100)
      else none)

/-- The per-habit line of `callback_stats` (src/main.py lines 587-595):
`true` when the handler prints the data line (`if stats and stats[0]:` —
for an integer count, truthiness means non-zero), `false` when it prints
"пока нет данных". -/
def callback_stats_line_has_data (records : List (Int × TrackStatus)) : Bool :=
  match (get_habit_stats records).completed_count with
  | none => false
  | some c => c != 0

/-- C8: the division-by-zero half of the claim holds (the percentage is
computed only under the source's `if total > 0` guard, so with zero counts
no division happens), but the "report no data" half fails for
`callback_habit_stats`: its guard `stats[0] is not None` is always
satisfied because SQL `COUNT` never returns NULL, so for a habit with zero
tracking records the handler renders the data block with zero counts (and
no percentage line) — the intended "Пока нет данных" branch is dead code.
The aggregate view `callback_stats`, whose guard is the truthiness test
`stats[0]`, does report "пока нет данных" for that habit. -/
theorem C8_no_data_branch_dead :
    callback_habit_stats_render [] = StatsReport.dataBlock 0 0 none ∧
    StatsReport.dataBlock 0 0 none ≠ StatsReport.noData ∧
    callback_stats_line_has_data [] = false := by
  refine ⟨rfl, ?_, rfl⟩
  intro h
  cases h

/-- `Database.add_user` (src/main.py lines 136-169): `INSERT OR IGNORE`
followed by an `UPDATE` of the non-key columns — on the `user_id` column the
net effect is insert-if-absent. -/
def add_user (db : DBState) (uid : Int) : DBState :=
  if uid ∈ db.users then db else { db with users := db.users ++ [uid] }

/-- SQLite `AUTOINCREMENT` for `habits.habit_id`. -/
def nextHabitId (db : DBState) : Int :=
  (db.habits.foldl (fun m h => max m h.habit_id) 0) + 1

/-- `Database.add_habit` (src/main.py lines 182-200): inserts the habit row
with whatever `user_id` it is given. The schema declares
`FOREIGN KEY (user_id) REFERENCES users (user_id)`, but the code never
issues `PRAGMA foreign_keys = ON`, so SQLite does not enforce the
constraint, and no Python-side check of the user's existence precedes the
insert. -/
def add_habit (db : DBState) (uid : Int) (name desc : List Char) (today : Int) :
    DBState :=
  { db with habits :=
      db.habits ++ [⟨nextHabitId db, uid, name, desc, today, true⟩] }

/-- The database-writing events relevant to habit ownership: `/start`
(`add_user` in `command_start_handler`) and completing the new-habit dialog
(`process_habit_description` calls `add_habit`). Pressing the new-habit
button and walking the dialog never registers the user — `callback_new_habit`
does not touch the users table — so a `createHabit` event carries no
guarantee that a `start` for that user came first. -/
inductive DBEvent where
  | start (uid : Int)
  | createHabit (uid : Int) (name desc : List Char) (today : Int)
deriving DecidableEq, Repr

def stepDB (db : DBState) : DBEvent → DBState
  | DBEvent.start uid => add_user db uid
  | DBEvent.createHabit uid name desc today => add_habit db uid name desc today

def runEvents (db : DBState) (es : List DBEvent) : DBState :=
  es.foldl stepDB db

/-- The freshly initialised database (`init_db` creates empty tables). -/
def initDB : DBState := ⟨[], [], []⟩

def ReachableDB (db : DBState) : Prop :=
  ∃ es : List DBEvent, runEvents initDB es = db

/-- The referential invariant "a habit's owning user must exist". -/
def ownersOk (db : DBState) : Prop :=
  ∀ h ∈ db.habits, h.user_id ∈ db.users

/-- C9 fails as stated: a user who never sent `/start` in this database's
lifetime (e.g. pressing a still-rendered new-habit button against a fresh
`habits.db`) can complete the creation dialog, and `add_habit` happily
inserts a habit row whose `user_id` matches no users row — the declared
foreign key is unenforced and the code performs no check. The resulting
state is reachable and violates the invariant. -/
theorem C9_counterexample :
    ReachableDB (runEvents initDB [DBEvent.createHabit 5 "Read".data [] 0]) ∧
    ¬ ownersOk (runEvents initDB [DBEvent.createHabit 5 "Read".data [] 0]) := by
  constructor
  · exact ⟨[DBEvent.createHabit 5 "Read".data [] 0], rfl⟩
  · intro hok
    have hmem := hok ⟨1, 5, "Read".data, [], 0, true⟩ (by decide)
    exact absurd hmem (by decide)

/-- C9 amended: habit creation preserves the ownership invariant exactly
when the creating user is already registered — which the normal flow
(`/start` before any menu exists) ensures — and `add_user` preserves it
unconditionally; the freshly initialised database satisfies it. Nothing in
the code enforces the precondition, so the invariant is conditional on the
flow, not guaranteed by `add_habit` itself. -/
theorem C9_ownership_preserved (db : DBState) (e : DBEvent)
    (hok : ownersOk db)
    (hpre : ∀ uid name desc today,
      e = DBEvent.createHabit uid name desc today → uid ∈ db.users) :
    ownersOk initDB ∧ ownersOk (stepDB db e) := by
  constructor
  · intro h hmem
    cases hmem
  · cases e with
    | start uid =>
      intro h hmem
      by_cases hin : uid ∈ db.users
      · rw [stepDB, add_user, if_pos hin] at hmem ⊢
        exact hok h hmem
      · rw [stepDB, add_user, if_neg hin] at hmem ⊢
        exact List.mem_append_left _ (hok h hmem)
    | createHabit uid name desc today =>
      intro h hmem
      have huid : uid ∈ db.users := hpre uid name desc today rfl
      rw [stepDB, add_habit] at hmem
      rcases List.mem_append.mp hmem with hmem | hmem
      · exact hok h hmem
      · have heq : h = ⟨nextHabitId db, uid, name, desc, today, true⟩ := by
          simpa using hmem
        rw [heq]
        exact huid

/-- Witness for C9's amended statement: user 7 is registered, then creates
a habit; the invariant holds before and after. -/
theorem C9_ownership_witness :
    ownersOk initDB ∧
    ownersOk (stepDB ⟨[7], [], []⟩ (DBEvent.createHabit 7 "Read".data [] 0)) :=
  C9_ownership_preserved ⟨[7], [], []⟩ (DBEvent.createHabit 7 "Read".data [] 0)
    (by intro h hmem; cases hmem)
    (by
      intro uid name desc today heq
      injection heq with h1 h2 h3 h4
      subst h1
      decide)
